import Mathlib

/-!
Shallow embedding of the Encrypted-DNS forwarding proxy (Rust) for a
verification pass over its cache, upstream forwarder, bootstrap resolver and
TCP listener. Pure data and control flow are translated directly from the
source; network and codec effects are passed in as explicit oracle values.
-/

section DataModel

/-- Resource data of a DNS answer record, as matched by the code
(`trust_dns_proto::rr::RData`): the code distinguishes `A`, `AAAA` and
"everything else", so other variants are collapsed into `Other`.
Addresses are modelled as naturals. -/
inductive RData where
  | A (ipv4 : Nat)
  | AAAA (ipv6 : Nat)
  | Other (tag : Nat)
deriving DecidableEq, Repr

/-- A DNS answer record (`trust_dns_proto::rr::Record`): name, record type
code, record class code, TTL in seconds (u32), and optional resource data
(`Record::data` returns an `Option`). -/
structure Record where
  name : String
  rtype : Nat
  rclassCode : Nat
  ttl : Nat
  data : Option RData
deriving DecidableEq, Repr

/-- A DNS query (`trust_dns_proto::op::Query`): name, query type code and
query class code. Derived equality mirrors the derived `PartialEq`/`Hash`
on the Rust struct. -/
structure Query where
  name : String
  qtype : Nat
  qclassCode : Nat
deriving DecidableEq, Repr

/-- A DNS message (`trust_dns_proto::op::Message`): 16-bit transaction id,
ordered queries, ordered answers. Header flags and the extra record
sections are elided: no code path under verification reads them. -/
structure Message where
  id : Nat
  queries : List Query
  answers : List Record
deriving DecidableEq, Repr

/-- Error type of the upstream side (`crate::error::UpstreamError`), with
the variants constructed in `bootstrap.rs` and `upstream.rs`:
`Bootstrap(host, diagnostic)`, `Build`, `Resolve`. -/
inductive UpstreamError where
  | Bootstrap (host : String) (diagnostic : String)
  | Build
  | Resolve
deriving DecidableEq, Repr

/-- An IP address, as produced by the bootstrap decoding. -/
inductive IpAddr where
  | v4 (addr : Nat)
  | v6 (addr : Nat)
deriving DecidableEq, Repr

/-- `std::net::SocketAddr`: an IP address paired with a port. -/
structure SocketAddr where
  ip : IpAddr
  port : Nat
deriving DecidableEq, Repr

end DataModel

section CacheModel

/-- Cache key (`cache.rs`, `struct Key`): the first query of the message. -/
structure Key where
  query : Query
deriving DecidableEq, Repr

/-- Cache value (`cache.rs`, `struct Value`): the cached message, the
insertion instant, and the entry TTL. Time is modelled as a natural
number of seconds, matching the second-granularity TTL comparisons. -/
structure Value where
  message : Message
  instant : Nat
  ttl : Nat
deriving DecidableEq, Repr

/-- Capacity of the LRU cache: `LruCache::new(NonZeroUsize::new(1024))`. -/
def cacheCapacity : Nat := 1024

/-- The shared response cache (`cache.rs`, `struct Cache`). The `lru`
crate's map is modelled as an association list in most-recently-used-first
order; the crate keeps keys unique, so key removal is modelled by
filtering. -/
structure Cache where
  entries : List (Key × Value)
deriving DecidableEq, Repr

/-- `Cache::new()`: an empty cache. -/
def Cache.new : Cache := ⟨[]⟩

/-- `message.answers().iter().min_by(|r1, r2| r1.ttl().cmp(&r2.ttl()))`:
the first answer record of minimum TTL, `none` on an empty list
(Rust's `min_by` keeps the earlier element on ties). -/
def minByTtl : List Record → Option Record
  | [] => none
  | r :: rs => some (rs.foldl (fun acc x => if x.ttl < acc.ttl then x else acc) r)

/-- `LruCache::put`: replace any entry with the same key, insert at the
most-recently-used end, and drop the least-recently-used entry when the
capacity is exceeded. -/
def lruPut (k : Key) (v : Value) (es : List (Key × Value)) : List (Key × Value) :=
  if ((k, v) :: es.filter (fun e => e.1 ≠ k)).length > cacheCapacity then
    ((k, v) :: es.filter (fun e => e.1 ≠ k)).dropLast
  else
    (k, v) :: es.filter (fun e => e.1 ≠ k)

/-- `LruCache::get`'s lookup part: the value stored under `k`, if any. -/
def lruLookup (k : Key) (es : List (Key × Value)) : Option Value :=
  (es.find? (fun e => e.1 = k)).map (·.2)

/-- `Cache::put` (`cache.rs`): no-op without queries; key from the first
query; entry TTL from the minimum-TTL answer record; no-op without
answers; otherwise insert into the LRU map. `now` stands for
`Instant::now()`. -/
def Cache.put (c : Cache) (message : Message) (now : Nat) : Cache :=
  match message.queries with
  | [] => c
  | q :: _ =>
    let key : Key := ⟨q⟩
    match minByTtl message.answers with
    | none => c
    | some minRecord =>
      let value : Value := ⟨message, now, minRecord.ttl⟩
      ⟨lruPut key value c.entries⟩

/-- `Cache::get` (`cache.rs`): `none` when the cache is empty or the message
has no queries; look up the first query's key; on a hit within the TTL,
promote the entry and return a clone of the cached message with the id
overwritten to the querying message's id; on an expired hit, evict the
entry and return `none`. Returns the result together with the updated
cache; `now` stands for the instant of `instant.elapsed()`. -/
def Cache.get (c : Cache) (message : Message) (now : Nat) : Option Message × Cache :=
  if c.entries.length = 0 ∨ message.queries = [] then (none, c)
  else
    match message.queries with
    | [] => (none, c)
    | q :: _ =>
      let messageId := message.id
      let key : Key := ⟨q⟩
      match lruLookup key c.entries with
      | none => (none, c)
      | some v =>
        let promoted := (key, v) :: c.entries.filter (fun e => e.1 ≠ key)
        if now - v.instant < v.ttl then
          (some { v.message with id := messageId }, ⟨promoted⟩)
        else
          (none, ⟨promoted.filter (fun e => e.1 ≠ key)⟩)

end CacheModel

section BootstrapModel

/-- The diagnostic string built in `bootstrap.rs` when the response has no
usable answer. -/
def noAnswerDiag : String := "the response doesn't contain the answer"

/-- The answer-processing tail of `BootstrapClient::bootstrap`
(`bootstrap.rs`), applied to the already-decoded response message: empty
answer section fails with a `Bootstrap(host, ..)` error; otherwise only
`answers[0]` is consulted; its resource data decodes `A` to an IPv4
address and `AAAA` to an IPv6 address, both with port 0, and anything
else fails with "unknown record type". -/
def bootstrapFromResponse (host : String) (response : Message) : Except UpstreamError SocketAddr :=
  match response.answers with
  | [] => .error (.Bootstrap host noAnswerDiag)
  | record :: _ =>
    match record.data with
    | none => .error (.Bootstrap host noAnswerDiag)
    | some (.A ipv4Address) => .ok ⟨.v4 ipv4Address, 0⟩
    | some (.AAAA ipv6Address) => .ok ⟨.v6 ipv6Address, 0⟩
    | some (.Other _) => .error (.Bootstrap host "unknown record type")

end BootstrapModel

section UpstreamModel

/-- The DNS-over-HTTPS forwarding client (`upstream.rs`, `struct
HttpsClient`): upstream host and port, and the response cache built by the
constructor. The reqwest client handle itself carries no further state the
verified code reads. -/
structure HttpsClient where
  host : String
  port : Nat
  cache : Cache
deriving DecidableEq, Repr

/-- `HttpsClient::new(host, port)` (`upstream.rs`): the constructor takes
only the host and the port — it has no cache-enable parameter — and always
installs a fresh cache (`cache: Cache::new()`). The bootstrap pinning and
reqwest builder are transport effects with no bearing on the state
verified here. -/
def HttpsClient.new (host : String) (port : Nat) : HttpsClient :=
  ⟨host, port, Cache.new⟩

/-- Outcomes of the effectful steps inside one `HttpsClient::process` call,
passed in as an oracle: the result of `request_message.to_vec()`, of the
POST round trip (`send` + `bytes`), and of `Message::from_vec` on the
response bytes (`none` encodes the error case of each step). -/
structure UpstreamOracle where
  encodeResult : Option (List Nat)
  sendResult : Option (List Nat)
  decodeResult : Option Message
deriving DecidableEq, Repr

/-- Decidable equality for `Except`, so that process outcomes can be
compared by evaluation. -/
instance {ε α : Type} [DecidableEq ε] [DecidableEq α] : DecidableEq (Except ε α) := fun
  | .error e1, .error e2 =>
      if h : e1 = e2 then .isTrue (congrArg Except.error h)
      else .isFalse (fun hh => h (Except.error.inj hh))
  | .error _, .ok _ => .isFalse (fun hh => Except.noConfusion hh)
  | .ok _, .error _ => .isFalse (fun hh => Except.noConfusion hh)
  | .ok a1, .ok a2 =>
      if h : a1 = a2 then .isTrue (congrArg Except.ok h)
      else .isFalse (fun hh => h (Except.ok.inj hh))

/-- Observable outcome of one `HttpsClient::process` call: the returned
value, the state of the cache afterwards, whether the upstream was
contacted, and the body POSTed to it (when it was). -/
structure ProcessResult where
  result : Except UpstreamError Message
  cache : Cache
  contactedUpstream : Bool
  postedBody : Option (List Nat)
deriving DecidableEq, Repr

/-- `HttpsClient::process` (`upstream.rs`): return the cached response on a
cache hit; on a miss encode the request (failure → `Resolve`), POST it
(failure → `Resolve`), decode the response bytes (failure → `Resolve`),
offer the decoded message to the cache unconditionally, and return it. -/
def HttpsClient.process (c : Cache) (requestMessage : Message) (now : Nat)
    (o : UpstreamOracle) : ProcessResult :=
  match c.get requestMessage now with
  | (some responseMessage, c1) => ⟨.ok responseMessage, c1, false, none⟩
  | (none, c1) =>
    match o.encodeResult with
    | none => ⟨.error .Resolve, c1, false, none⟩
    | some rawRequestMessage =>
      match o.sendResult with
      | none => ⟨.error .Resolve, c1, true, some rawRequestMessage⟩
      | some _rawResponseMessage =>
        match o.decodeResult with
        | none => ⟨.error .Resolve, c1, true, some rawRequestMessage⟩
        | some message => ⟨.ok message, c1.put message now, true, some rawRequestMessage⟩

end UpstreamModel

section TcpModel

/-- `w`-byte big-endian encoding of `n mod 2^(8*w)`, as produced by Rust's
`to_be_bytes`; bytes are naturals below 256. -/
def natToBeBytes : Nat → Nat → List Nat
  | 0, _ => []
  | w + 1, n => (n / 2 ^ (8 * w)) % 256 :: natToBeBytes w n

/-- `u16::from_be_bytes([b1, b2])` on two bytes. -/
def u16FromBe (b1 b2 : Nat) : Nat := (b1 % 256) * 256 + (b2 % 256)

/-- The reply framing the specification describes for the TCP listener: a
2-byte big-endian prefix holding the encoded response's byte length,
followed by the body. Stated from the spec's words, to be compared with
what the code writes. -/
def specTcpReply (body : List Nat) : List Nat :=
  natToBeBytes 2 body.length ++ body

/-- One observable action of the TCP per-connection loop on its stream. -/
inductive TcpEvent where
  | writeBytes (bytes : List Nat)
  | flushConn
deriving DecidableEq, Repr

/-- Outcomes of the effectful steps inside one iteration of the TCP
per-connection loop (`tcp.rs`, `LocalTcpListener::listen`), passed in as
an oracle: the 2-byte length read (`none` = read error), the body
`read_exact` (`none` = read error), `Message::from_vec`,
`https_client.process`, `response_message.to_vec`, and whether each of
the two `write_all` calls and the `flush` succeeded. -/
structure IterOracle where
  lengthRead : Option (Nat × Nat)
  bodyRead : Option (List Nat)
  decodeResult : Option Message
  processResult : Option Message
  encodeResult : Option (List Nat)
  writeLenOk : Bool
  writeBodyOk : Bool
  flushOk : Bool
deriving DecidableEq, Repr

/-- One iteration of the TCP per-connection loop (`tcp.rs`): read the
2-byte length (error → return), return on a zero length, `read_exact` the
body (error → return), decode (error → return), forward (error → return),
encode (error → return), then write `raw.len().to_be_bytes()` — the
big-endian bytes of a `usize`, 8 bytes on a 64-bit target — write the
body, and flush; a failed write or flush is only logged and does not end
the loop. Returns the stream actions of the iteration and whether the
task returned. -/
def tcpConnIterate (o : IterOracle) : List TcpEvent × Bool :=
  match o.lengthRead with
  | none => ([], true)
  | some (b1, b2) =>
    if u16FromBe b1 b2 = 0 then ([], true)
    else
      match o.bodyRead with
      | none => ([], true)
      | some _buffer =>
        match o.decodeResult with
        | none => ([], true)
        | some _requestMessage =>
          match o.processResult with
          | none => ([], true)
          | some _responseMessage =>
            match o.encodeResult with
            | none => ([], true)
            | some rawResponseMessage =>
              ([.writeBytes (natToBeBytes 8 rawResponseMessage.length),
                .writeBytes rawResponseMessage,
                .flushConn], false)

/-- The TCP per-connection loop run over a finite script of iteration
oracles: iterations run in order until one returns; oracles after a
returning iteration are never consumed (the task is gone). Yields all
stream actions performed. -/
def tcpConnLoop : List IterOracle → List TcpEvent
  | [] => []
  | o :: os =>
    match tcpConnIterate o with
    | (events, true) => events
    | (events, false) => events ++ tcpConnLoop os

/-- The bytes written to the stream before the first flush, concatenated. -/
def writtenBeforeFlush : List TcpEvent → List Nat
  | [] => []
  | .flushConn :: _ => []
  | .writeBytes bytes :: rest => bytes ++ writtenBeforeFlush rest

end TcpModel

section Fixtures

/-- A concrete query used by the concrete-input checks. -/
def qEx : Query := ⟨"example.com.", 1, 1⟩

/-- A concrete A answer record with the given TTL. -/
def ansEx (t : Nat) : Record := ⟨"example.com.", 1, 1, t, some (.A 16843009)⟩

/-- A concrete answer-bearing message with answer TTLs 10 and 1000. -/
def msgEx : Message := ⟨7, [qEx], [ansEx 10, ansEx 1000]⟩

/-- A concrete request message for the same question, with a different id. -/
def reqEx : Message := ⟨42, [qEx], []⟩

/-- A concrete answer-bearing message whose single answer has TTL 0. -/
def msgTtl0 : Message := ⟨7, [qEx], [ansEx 0]⟩

/-- The cache after storing `msgEx` at instant 0. -/
def cacheWithMsgEx : Cache := Cache.new.put msgEx 0

/-- The cache after storing the TTL-0 message at instant 0. -/
def cacheWithTtl0 : Cache := Cache.new.put msgTtl0 0

/-- A concrete upstream oracle whose every step succeeds. -/
def oracleUpEx : UpstreamOracle := ⟨some [1, 2, 3], some [4, 5, 6], some msgEx⟩

/-- A concrete 32-byte encoded response body. -/
def rawRespEx : List Nat := List.replicate 32 9

/-- A TCP iteration oracle in which every read, the forwarding, the
encoding and every write succeed. -/
def tcpOracleOk : IterOracle :=
  ⟨some (0, 34), some (List.replicate 34 0), some ⟨1, [qEx], []⟩, some msgEx,
    some rawRespEx, true, true, true⟩

/-- The successful TCP iteration oracle, except that both writes and the
flush fail. -/
def tcpOracleWriteFail : IterOracle :=
  { tcpOracleOk with writeLenOk := false, writeBodyOk := false, flushOk := false }

/-- A TCP iteration oracle whose length read fails. -/
def tcpOracleReadFail : IterOracle :=
  { tcpOracleOk with lengthRead := none }

/-- A concrete bootstrap response whose first answer is an A record for
8.8.8.8 and whose second answer would decode to an unsupported type. -/
def respBootEx : Message :=
  ⟨1, [], [⟨"dns.google.", 1, 1, 100, some (.A 134744072)⟩,
           ⟨"dns.google.", 1, 1, 100, some (.Other 5)⟩]⟩

/-- A concrete bootstrap response with an empty answer section. -/
def respBootEmpty : Message := ⟨1, [], []⟩

end Fixtures

section HelperLemmas

/-- The record picked by `minByTtl` carries the minimum TTL of the list. -/
theorem foldl_minByTtl_ttl (rs : List Record) : ∀ r : Record,
    (rs.foldl (fun acc x => if x.ttl < acc.ttl then x else acc) r).ttl =
      (rs.map Record.ttl).foldl min r.ttl := by
  induction rs with
  | nil => intro r; rfl
  | cons x xs ih =>
    intro r
    simp only [List.foldl_cons, List.map_cons]
    rw [ih]
    have hstep : (if x.ttl < r.ttl then x else r).ttl = min r.ttl x.ttl := by
      split
      · omega
      · omega
    rw [hstep]

/-- `minByTtl` computes the minimum of the answer TTLs. -/
theorem minByTtl_ttl (rs : List Record) :
    (minByTtl rs).map Record.ttl = (rs.map Record.ttl).min? := by
  cases rs with
  | nil => rfl
  | cons r rs =>
    show some _ = _
    rw [foldl_minByTtl_ttl]
    rfl

/-- `lruPut` always leaves the new entry at the most-recently-used end. -/
theorem lruPut_cons (k : Key) (v : Value) (es : List (Key × Value)) :
    ∃ t, lruPut k v es = (k, v) :: t := by
  unfold lruPut
  by_cases h : ((k, v) :: es.filter (fun e => e.1 ≠ k)).length > cacheCapacity
  · rw [if_pos h]
    cases hf : es.filter (fun e => e.1 ≠ k) with
    | nil => rw [hf] at h; simp [cacheCapacity] at h
    | cons b t' =>
      exact ⟨(b :: t').dropLast, List.dropLast_cons₂⟩
  · rw [if_neg h]
    exact ⟨_, rfl⟩

/-- Looking up the key of the head entry finds the head entry. -/
theorem find?_key_head (k : Key) (v : Value) (t : List (Key × Value)) :
    ((k, v) :: t).find? (fun e => e.1 = k) = some (k, v) :=
  List.find?_cons_of_pos _ (by simp)

/-- Filtering a key out of a promoted list equals filtering it out of the
original entries. -/
theorem filter_promoted (k : Key) (v : Value) (es : List (Key × Value)) :
    ((k, v) :: es.filter (fun e => e.1 ≠ k)).filter (fun e => e.1 ≠ k) =
      es.filter (fun e => e.1 ≠ k) := by
  simp [List.filter_cons, List.filter_filter]

/-- A message whose queries have head `q` has queries `q :: tail`. -/
theorem queries_of_head (M : Message) (q : Query) (h : M.queries.head? = some q) :
    ∃ tl, M.queries = q :: tl := by
  cases hM : M.queries with
  | nil => rw [hM] at h; simp at h
  | cons a tl =>
    rw [hM] at h
    simp only [List.head?_cons, Option.some.injEq] at h
    exact ⟨tl, by rw [h]⟩

end HelperLemmas

section CacheClaims

/-- C10: `Cache::put` with no queries, or with queries but no answers,
leaves the cache contents entirely unchanged, and `Cache::get` against an
empty cache, or with a message that has no queries, returns `none`
without modifying the cache. -/
theorem cache_noop_guards (c : Cache) (M : Message) (t : Nat) :
    (M.queries = [] → c.put M t = c) ∧
    (M.answers = [] → c.put M t = c) ∧
    (c.entries = [] → c.get M t = (none, c)) ∧
    (M.queries = [] → c.get M t = (none, c)) := by
  refine ⟨fun h => ?_, fun h => ?_, fun h => ?_, fun h => ?_⟩
  · simp [Cache.put, h]
  · cases hq : M.queries with
    | nil => simp [Cache.put, hq]
    | cons a tl => simp [Cache.put, hq, h, minByTtl]
  · simp [Cache.get, h]
  · simp [Cache.get, h]

/-- C10 witness: the four guards evaluated at concrete caches and
messages. -/
theorem cache_noop_guards_check :
    Cache.new.put respBootEmpty 0 = Cache.new ∧
    cacheWithMsgEx.put reqEx 3 = cacheWithMsgEx ∧
    Cache.new.get reqEx 0 = (none, Cache.new) ∧
    cacheWithMsgEx.get respBootEmpty 3 = (none, cacheWithMsgEx) :=
  ⟨(cache_noop_guards Cache.new respBootEmpty 0).1 rfl,
   (cache_noop_guards cacheWithMsgEx reqEx 3).2.1 rfl,
   (cache_noop_guards Cache.new reqEx 0).2.2.1 rfl,
   (cache_noop_guards cacheWithMsgEx respBootEmpty 3).2.2.2 rfl⟩

/-- C4: after `Cache::put` of an answer-bearing message, the entry just
inserted (at the most-recently-used end) stores a TTL equal to the
minimum TTL across all of the message's answer records. -/
theorem cache_put_ttl_is_min (c : Cache) (M : Message) (t : Nat) (q : Query)
    (hMq : M.queries.head? = some q) (hans : M.answers ≠ []) :
    (c.put M t).entries.head?.map (fun e => e.2.ttl) =
      (M.answers.map Record.ttl).min? := by
  obtain ⟨mq, hMqs⟩ := queries_of_head M q hMq
  obtain ⟨r, hmb⟩ : ∃ r, minByTtl M.answers = some r := by
    cases hA : M.answers with
    | nil => exact absurd hA hans
    | cons a as => exact ⟨_, rfl⟩
  obtain ⟨tail, htail⟩ := lruPut_cons ⟨q⟩ ⟨M, t, r.ttl⟩ c.entries
  have hput : (c.put M t).entries = (⟨q⟩, (⟨M, t, r.ttl⟩ : Value)) :: tail := by
    simp only [Cache.put, hMqs, hmb]
    exact htail
  rw [hput]
  have hm := minByTtl_ttl M.answers
  rw [hmb] at hm
  simp only [Option.map_some'] at hm
  rw [← hm]
  simp

/-- C4 witness: a message with answer TTLs 10 and 1000 is stored with TTL
10, not 1000. -/
theorem cache_put_ttl_is_min_check :
    (Cache.new.put msgEx 0).entries.head?.map (fun e => e.2.ttl) = some 10 :=
  (cache_put_ttl_is_min Cache.new msgEx 0 qEx (by decide) (by decide)).trans
    (by decide)

/-- C2: storing an answer-bearing message `M` whose minimum answer TTL is
positive, then fetching with any message `Q` that has the same first
query (any transaction id) before that TTL elapses, returns the stored
message with its transaction id overwritten to `Q`'s id — hence the
answers equal `M`'s answers and the id is `Q`'s, not `M`'s. -/
theorem cache_round_trip (c : Cache) (M Q : Message) (q : Query)
    (ttlMin t0 t1 : Nat)
    (hMq : M.queries.head? = some q)
    (hQq : Q.queries.head? = some q)
    (hmin : (M.answers.map Record.ttl).min? = some ttlMin)
    (hpos : 0 < ttlMin)
    (hfresh : t1 - t0 < ttlMin) :
    ((c.put M t0).get Q t1).1 = some { M with id := Q.id } := by
  obtain ⟨mq, hMqs⟩ := queries_of_head M q hMq
  obtain ⟨qq, hQqs⟩ := queries_of_head Q q hQq
  obtain ⟨r, hmb, hrt⟩ : ∃ r, minByTtl M.answers = some r ∧ r.ttl = ttlMin := by
    have h := minByTtl_ttl M.answers
    rw [hmin] at h
    cases hmb : minByTtl M.answers with
    | none => rw [hmb] at h; simp at h
    | some r =>
      rw [hmb] at h
      simp only [Option.map_some', Option.some.injEq] at h
      exact ⟨r, rfl, h⟩
  obtain ⟨tail, htail⟩ := lruPut_cons ⟨q⟩ ⟨M, t0, r.ttl⟩ c.entries
  have hput : (c.put M t0).entries = (⟨q⟩, (⟨M, t0, r.ttl⟩ : Value)) :: tail := by
    simp only [Cache.put, hMqs, hmb]
    exact htail
  simp only [Cache.get, hput, hQqs, lruLookup, find?_key_head, Option.map_some']
  rw [if_neg (by simp)]
  rw [if_pos (show t1 - t0 < r.ttl by omega)]

/-- C2 witness: the stored message is returned with the fetching message's
transaction id 42 in place of the stored id 7. -/
theorem cache_round_trip_check :
    ((Cache.new.put msgEx 0).get reqEx 3).1 = some { msgEx with id := 42 } :=
  cache_round_trip Cache.new msgEx reqEx qEx 10 0 3 (by decide) (by decide)
    (by decide) (by decide) (by decide)

/-- C5: if at `Cache::get` the elapsed time since insertion has reached or
passed the stored TTL, the fetch returns `none`, the entry is removed
from the cache, and any later fetch for the same question also returns
`none`. -/
theorem cache_get_expired_evicts (c : Cache) (Q : Message) (q : Query)
    (t1 t2 : Nat) (kv : Key × Value)
    (hQq : Q.queries.head? = some q)
    (hfind : c.entries.find? (fun e => e.1 = (⟨q⟩ : Key)) = some kv)
    (hexp : kv.2.ttl ≤ t1 - kv.2.instant) :
    (c.get Q t1).1 = none ∧
    (c.get Q t1).2.entries.find? (fun e => e.1 = (⟨q⟩ : Key)) = none ∧
    ((c.get Q t1).2.get Q t2).1 = none := by
  obtain ⟨qq, hQqs⟩ := queries_of_head Q q hQq
  have hne : c.entries ≠ [] := by
    intro h
    rw [h] at hfind
    simp at hfind
  have hget : c.get Q t1 = (none, ⟨c.entries.filter (fun e => e.1 ≠ (⟨q⟩ : Key))⟩) := by
    simp only [Cache.get, hQqs, lruLookup, hfind, Option.map_some']
    rw [if_neg (by simp [List.length_eq_zero, hne])]
    rw [if_neg (by omega)]
    rw [filter_promoted]
  have hfind2 : (c.entries.filter (fun e => e.1 ≠ (⟨q⟩ : Key))).find?
      (fun e => e.1 = (⟨q⟩ : Key)) = none := by
    rw [List.find?_eq_none]
    intro x hx
    have hx2 := (List.mem_filter.mp hx).2
    simp only [decide_eq_true_eq, ne_eq] at hx2
    simp [hx2]
  refine ⟨by rw [hget], by rw [hget]; exact hfind2, ?_⟩
  rw [hget]
  simp only [Cache.get, hQqs, lruLookup, hfind2, Option.map_none']
  split <;> rfl

/-- C5 witness: an entry stored with TTL 0 is absent on the very next
fetch, is removed, and stays absent on a later fetch. -/
theorem cache_get_expired_evicts_check :
    (cacheWithTtl0.get reqEx 0).1 = none ∧
    (cacheWithTtl0.get reqEx 0).2.entries.find?
      (fun e => e.1 = (⟨qEx⟩ : Key)) = none ∧
    ((cacheWithTtl0.get reqEx 0).2.get reqEx 5).1 = none :=
  cache_get_expired_evicts cacheWithTtl0 reqEx qEx 0 5 (⟨qEx⟩, ⟨msgTtl0, 0, 0⟩)
    (by decide) (by decide) (by decide)

end CacheClaims

section UpstreamClaims

/-- C3: `HttpsClient::process` returns the cache's response immediately on
a cache hit without contacting the upstream; on a miss it encodes the
request, POSTs exactly those bytes, decodes the upstream response,
unconditionally offers the decoded response to the cache via
`Cache::put`, and returns the decoded response. -/
theorem https_process_cache_flow (c : Cache) (req : Message) (now : Nat)
    (o : UpstreamOracle) :
    (∀ resp c1, c.get req now = (some resp, c1) →
      HttpsClient.process c req now o = ⟨.ok resp, c1, false, none⟩) ∧
    (∀ c1 raw bytes msg, c.get req now = (none, c1) →
      o.encodeResult = some raw → o.sendResult = some bytes →
      o.decodeResult = some msg →
      HttpsClient.process c req now o = ⟨.ok msg, c1.put msg now, true, some raw⟩) := by
  constructor
  · intro resp c1 h
    simp only [HttpsClient.process, h]
  · intro c1 raw bytes msg h he hs hd
    simp only [HttpsClient.process, h, he, hs, hd]

/-- C3 witness: a concrete hit is served from the cache without upstream
contact; a concrete miss goes upstream, is stored, and is returned. -/
theorem https_process_cache_flow_check :
    HttpsClient.process cacheWithMsgEx reqEx 3 oracleUpEx =
      ⟨.ok { msgEx with id := 42 }, cacheWithMsgEx, false, none⟩ ∧
    HttpsClient.process Cache.new reqEx 3 oracleUpEx =
      ⟨.ok msgEx, Cache.new.put msgEx 3, true, some [1, 2, 3]⟩ :=
  ⟨(https_process_cache_flow cacheWithMsgEx reqEx 3 oracleUpEx).1 _ _ (by decide),
   (https_process_cache_flow Cache.new reqEx 3 oracleUpEx).2 _ _ _ _
     (by decide) rfl rfl rfl⟩

/-- C9: the embedded `HttpsClient::new` from `upstream.rs` is a function of
the host and the port only — it has no cache-enable parameter — and it
always installs a fresh cache, so caching is not configurable at
construction time. (The repository's own `main.rs` and test helper call
`HttpsClient::new` with a third cache flag, contradicting this
definition.) -/
theorem https_new_always_caches (host : String) (port : Nat) :
    HttpsClient.new host port = ⟨host, port, Cache.new⟩ ∧
    (HttpsClient.new host port).cache = Cache.new :=
  ⟨rfl, rfl⟩

end UpstreamClaims

section BootstrapClaims

/-- C7: on a bootstrap response with a non-empty answer section, only the
first answer record is consulted; an A record yields its IPv4 address and
an AAAA record its IPv6 address, any other resource-data type yields a
Bootstrap error with diagnostic "unknown record type", and every
successfully returned socket address has port 0. -/
theorem bootstrap_first_answer_only (host : String) (resp : Message)
    (r : Record) (rest : List Record) (h : resp.answers = r :: rest) :
    (∀ id2 qs2 rest2, bootstrapFromResponse host ⟨id2, qs2, r :: rest2⟩ =
        bootstrapFromResponse host ⟨0, [], [r]⟩) ∧
    (∀ ip, r.data = some (.A ip) →
        bootstrapFromResponse host resp = .ok ⟨.v4 ip, 0⟩) ∧
    (∀ ip, r.data = some (.AAAA ip) →
        bootstrapFromResponse host resp = .ok ⟨.v6 ip, 0⟩) ∧
    (∀ tag, r.data = some (.Other tag) →
        bootstrapFromResponse host resp =
          .error (.Bootstrap host "unknown record type")) ∧
    (∀ addr, bootstrapFromResponse host resp = .ok addr → addr.port = 0) := by
  refine ⟨fun id2 qs2 rest2 => rfl, fun ip hip => ?_, fun ip hip => ?_,
    fun tag htag => ?_, fun addr haddr => ?_⟩
  · simp only [bootstrapFromResponse, h, hip]
  · simp only [bootstrapFromResponse, h, hip]
  · simp only [bootstrapFromResponse, h, htag]
  · simp only [bootstrapFromResponse, h] at haddr
    cases hd : r.data with
    | none => rw [hd] at haddr; cases haddr
    | some rd =>
      cases rd with
      | A ip =>
        rw [hd] at haddr
        simp only [Except.ok.injEq] at haddr
        rw [← haddr]
      | AAAA ip =>
        rw [hd] at haddr
        simp only [Except.ok.injEq] at haddr
        rw [← haddr]
      | Other tag => rw [hd] at haddr; cases haddr

/-- C7 witness: a response whose first answer is an A record for 8.8.8.8
resolves to that IPv4 address with port 0, ignoring the later answer. -/
theorem bootstrap_first_answer_only_check :
    bootstrapFromResponse "dns.google" respBootEx = .ok ⟨.v4 134744072, 0⟩ :=
  (bootstrap_first_answer_only "dns.google" respBootEx
      ⟨"dns.google.", 1, 1, 100, some (.A 134744072)⟩
      [⟨"dns.google.", 1, 1, 100, some (.Other 5)⟩] rfl).2.1 134744072 rfl

/-- C8: on a bootstrap response whose answer section is empty, the
bootstrap fails with a Bootstrap error carrying the queried hostname and
the no-answer diagnostic, and returns no address. -/
theorem bootstrap_empty_answers_error (host : String) (resp : Message)
    (h : resp.answers = []) :
    bootstrapFromResponse host resp = .error (.Bootstrap host noAnswerDiag) := by
  simp only [bootstrapFromResponse, h]

/-- C8 witness: the empty-answer response fails for "dns.google" with the
hostname and the no-answer diagnostic in the error. -/
theorem bootstrap_empty_answers_error_check :
    bootstrapFromResponse "dns.google" respBootEmpty =
      .error (.Bootstrap "dns.google" noAnswerDiag) :=
  bootstrap_empty_answers_error "dns.google" respBootEmpty rfl

end BootstrapClaims

section TcpClaims

/-- C1, as the code behaves: on a fully successful iteration the TCP
per-connection loop writes `raw.len().to_be_bytes()` — the big-endian
bytes of a `usize`, 8 bytes on a 64-bit target — then the body, before
flushing; the bytes written before the flush are NOT the spec's 2-byte
big-endian length prefix followed by the body. Evaluated at a concrete
32-byte encoded response. -/
theorem tcp_reply_len_written_as_usize :
    writtenBeforeFlush (tcpConnIterate tcpOracleOk).1 =
      natToBeBytes 8 rawRespEx.length ++ rawRespEx ∧
    (natToBeBytes 8 rawRespEx.length).length = 8 ∧
    writtenBeforeFlush (tcpConnIterate tcpOracleOk).1 ≠ specTcpReply rawRespEx := by
  decide

/-- C6 counterexample: an iteration in which both writes and the flush
fail does not terminate the connection task — the loop goes on to read
and reply to the next message, contrary to the claim that any write
error terminates the task. -/
theorem tcp_write_error_continues_loop :
    tcpOracleWriteFail.writeLenOk = false ∧
    tcpOracleWriteFail.writeBodyOk = false ∧
    tcpOracleWriteFail.flushOk = false ∧
    (tcpConnIterate tcpOracleWriteFail).2 = false ∧
    tcpConnLoop [tcpOracleWriteFail, tcpOracleOk] =
      (tcpConnIterate tcpOracleWriteFail).1 ++ (tcpConnIterate tcpOracleOk).1 ∧
    (tcpConnIterate tcpOracleOk).1 ≠ [] := by
  decide

/-- C6 amended: reading a zero-length prefix, or any read error (on the
length prefix or the body), terminates that connection's task; no
further messages are read or replied to on that connection after such an
event. -/
theorem tcp_read_error_or_zero_terminates (o : IterOracle) (os : List IterOracle)
    (h : o.lengthRead = none ∨
         (∃ b1 b2, o.lengthRead = some (b1, b2) ∧ u16FromBe b1 b2 = 0) ∨
         o.bodyRead = none) :
    tcpConnIterate o = ([], true) ∧ tcpConnLoop (o :: os) = [] := by
  have hit : tcpConnIterate o = ([], true) := by
    rcases h with h | ⟨b1, b2, hb, hz⟩ | h
    · simp [tcpConnIterate, h]
    · simp [tcpConnIterate, hb, hz]
    · cases hl : o.lengthRead with
      | none => simp [tcpConnIterate, hl]
      | some b =>
        cases b with
        | mk b1 b2 =>
          by_cases hz : u16FromBe b1 b2 = 0
          · simp [tcpConnIterate, hl, hz]
          · simp [tcpConnIterate, hl, hz, h]
  refine ⟨hit, ?_⟩
  simp [tcpConnLoop, hit]

/-- C6 amended witness: a failed length read on a concrete connection
script terminates the task and nothing further is read or written. -/
theorem tcp_read_error_or_zero_terminates_check :
    tcpConnIterate tcpOracleReadFail = ([], true) ∧
    tcpConnLoop [tcpOracleReadFail, tcpOracleOk] = [] :=
  tcp_read_error_or_zero_terminates tcpOracleReadFail [tcpOracleOk] (Or.inl rfl)

end TcpClaims
